import Mathlib

/-!
Verification development for the Pascal-sNotes upload/moderation workflow
(`pascals_notes_app.py`).

The embedding below translates the workflow core of the source file:
the classification catalog `SUBJECTS`, the extension check `allowed_file`,
the storage-key generation of `save_upload`, the per-file loop shared by the
`upload` and `admin_upload` routes, the moderation actions `admin_approve`
and `admin_reject`, and the public `browse` query.

State model: the sqlite `uploads` table becomes a list of rows plus the next
AUTOINCREMENT id; the two storage directories become two lists of filenames
(each directory is a set of names, so insertion deduplicates and removal
filters).  Presentation-only behaviour (templates, flashes, redirects,
sessions) is out of scope; route failures are modelled as error values
mirroring the flashed message that aborts the request.
-/

namespace PascalsNotes

/-- The `SUBJECTS` dict: subject name to the list of valid grades. -/
def SUBJECTS : List (String × List String) := [
  ("Mathematics", ["8", "9", "10", "11", "12"]),
  ("Mathematical Literacy", ["10", "11", "12"]),
  ("Physical Sciences", ["10", "11", "12"]),
  ("Life Sciences", ["10", "11", "12"]),
  ("Accounting", ["10", "11", "12"]),
  ("Geography", ["10", "11", "12"]),
  ("Economics", ["10", "11", "12"]),
  ("Business Studies", ["10", "11", "12"]),
  ("Agricultural Sciences", ["10", "11", "12"]),
  ("EMS", ["8", "9"]),
  ("Natural Sciences", ["8", "9"])]

/-- `ALLOWED_EXTENSIONS = {'pdf'}`. -/
def ALLOWED_EXTENSIONS : List String := ["pdf"]

/-- `subject in SUBJECTS` (dict key membership). -/
def subjectMember (s : String) : Bool := SUBJECTS.any (fun p => p.1 == s)

/-- `SUBJECTS.get(subject, [])`. -/
def subjectGrades (s : String) : List String :=
  ((SUBJECTS.find? (fun p => p.1 == s)).map Prod.snd).getD []

/-- Python `str.lower()`, character by character (ASCII case fold). -/
def lowerStr (s : String) : String := String.mk (s.data.map Char.toLower)

/-- Python `str.strip()`: drop leading and trailing whitespace. -/
def stripStr (s : String) : String :=
  String.mk (((s.data.dropWhile Char.isWhitespace).reverse.dropWhile
    Char.isWhitespace).reverse)

/-- `filename.rsplit('.', 1)[1]`: the characters after the last dot. -/
def extAfterLastDot (filename : String) : String :=
  String.mk ((filename.data.reverse.takeWhile (fun c => c != '.')).reverse)

/-- `allowed_file`: `'.' in filename and filename.rsplit('.', 1)[1].lower()
in ALLOWED_EXTENSIONS`. -/
def allowed_file (filename : String) : Bool :=
  filename.data.contains '.' &&
    ALLOWED_EXTENSIONS.contains (lowerStr (extAfterLastDot filename))

/-- Modelled from the spec: the sanitizer used by `save_upload` is werkzeug's
`secure_filename`, which is not part of this repository.  The spec asks for
"a sanitized form of the original filename (strip path separators and control
characters; collapse to a safe character set)"; we keep exactly the safe
characters (letters, digits, dot, underscore, dash) of the original name. -/
def secure_filename (s : String) : String :=
  String.mk (s.data.filter (fun c =>
    c.isAlphanum || c == '.' || c == '_' || c == '-'))

/-- The storage key built by `save_upload`:
`f"{timestamp}__{secure_filename(original)}"`, where `timestamp` is the
microsecond clock reading `datetime.utcnow().strftime('%Y%m%d%H%M%S%f')`
taken at the moment the file is saved. -/
def save_upload_key (timestamp original : String) : String :=
  timestamp ++ "__" ++ secure_filename original

/-- One row of the sqlite `uploads` table.  The unused `notes` column (never
written by any INSERT) is omitted. -/
structure UploadRow where
  id : Nat
  filename : String
  original_name : String
  subject : String
  grade : String
  uploader : String
  status : String
  uploaded_at : String
deriving DecidableEq, Repr

/-- Whole-application state: the `uploads` table (with the next AUTOINCREMENT
id) and the name sets of the two storage directories. -/
structure AppState where
  uploads : List UploadRow
  nextId : Nat
  pendingZone : List String
  approvedZone : List String
deriving DecidableEq, Repr

/-- Fresh database (AUTOINCREMENT starts at 1) and empty directories. -/
def initState : AppState := ⟨[], 1, [], []⟩

/-- Writing a file into a directory: a directory is a set of names, so a
second write of the same name overwrites in place. -/
def zoneInsert (key : String) (zone : List String) : List String :=
  if zone.contains key then zone else key :: zone

/-- `os.remove` / the removal half of `os.replace`: drop the name. -/
def zoneRemove (key : String) (zone : List String) : List String :=
  zone.filter (fun k => k != key)

/-- The two storage directories `PENDING_DIR` and `APPROVED_DIR`. -/
inductive Zone
| pendingDir
| approvedDir
deriving DecidableEq, Repr

/-- One entry of `request.files.getlist('files')`: the client filename plus
the microsecond clock reading that `save_upload` would observe when saving
this file. -/
structure UploadFile where
  filename : String
  saveTimestamp : String
deriving DecidableEq, Repr

/-- Batch-level failures of the upload routes, one per flashed message that
aborts the request before any per-file work. -/
inductive IngestError
| noSelectedFiles
| invalidSubject
| invalidGrade
| invalidSubjectOrGrade
deriving DecidableEq, Repr

/-- Failures of the moderation routes `admin_approve` / `admin_reject`. -/
inductive ModError
| notFound
| invalidState
deriving DecidableEq, Repr

/-- Whether an `Except` result is a success. -/
def exceptIsOk {ε α : Type} : Except ε α → Bool
  | Except.ok _ => true
  | Except.error _ => false

/-- The per-file acceptance test of both upload loops:
`file and file.filename and allowed_file(file.filename)`. -/
def fileAccepted (f : UploadFile) : Bool :=
  f.filename != "" && allowed_file f.filename

/-- The row INSERTed for one accepted file. -/
def mkRecord (nid : Nat) (f : UploadFile)
    (subject grade uploader status now : String) : UploadRow :=
  { id := nid
    filename := save_upload_key f.saveTimestamp f.filename
    original_name := f.filename
    subject := subject
    grade := grade
    uploader := uploader
    status := status
    uploaded_at := now }

/-- `file_storage.save(path)` inside `save_upload`. -/
def putBlob (z : Zone) (key : String) (st : AppState) : AppState :=
  match z with
  | Zone.pendingDir => { st with pendingZone := zoneInsert key st.pendingZone }
  | Zone.approvedDir => { st with approvedZone := zoneInsert key st.approvedZone }

/-- The INSERT statement: append the row, bump AUTOINCREMENT. -/
def insertRow (row : UploadRow) (st : AppState) : AppState :=
  { st with uploads := st.uploads ++ [row], nextId := st.nextId + 1 }

/-- The shared per-file loop of `upload` and `admin_upload`: an accepted file
is saved (blob write first) and INSERTed (one row); any other file only bumps
the rejected counter.  Returns the final state with the accepted and rejected
counts. -/
def processFiles (subject grade uploader status : String) (zone : Zone)
    (now : String) :
    List UploadFile → AppState → Nat → Nat → AppState × Nat × Nat
  | [], st, accepted, rejected => (st, accepted, rejected)
  | f :: rest, st, accepted, rejected =>
    if fileAccepted f then
      processFiles subject grade uploader status zone now rest
        (insertRow (mkRecord st.nextId f subject grade uploader status now)
          (putBlob zone (save_upload_key f.saveTimestamp f.filename) st))
        (accepted + 1) rejected
    else
      processFiles subject grade uploader status zone now rest st accepted
        (rejected + 1)

/-- The POST branch of the `upload` route (user ingestion): batch guards in
source order, then the per-file loop targeting the pending directory with
status `pending`.  `now` is `datetime.utcnow().isoformat()`. -/
def upload (subject grade uploader : String) (files : List UploadFile)
    (now : String) (st : AppState) : Except IngestError (AppState × Nat × Nat) :=
  if files.isEmpty || files.all (fun f => f.filename == "") then
    Except.error IngestError.noSelectedFiles
  else if subject == "" || !subjectMember subject then
    Except.error IngestError.invalidSubject
  else if grade == "" || !(subjectGrades subject).contains grade then
    Except.error IngestError.invalidGrade
  else
    Except.ok (processFiles subject grade (stripStr uploader) "pending"
      Zone.pendingDir now files st 0 0)

/-- The `admin_upload` route (operator direct upload): its only
classification guard is `not subject or subject not in SUBJECTS or not
grade`; accepted files go straight to the approved directory with uploader
`'admin'` and status `'approved'`. -/
def admin_upload (subject grade : String) (files : List UploadFile)
    (now : String) (st : AppState) : Except IngestError (AppState × Nat × Nat) :=
  if files.isEmpty || files.all (fun f => f.filename == "") then
    Except.error IngestError.noSelectedFiles
  else if (subject == "" || !subjectMember subject) || grade == "" then
    Except.error IngestError.invalidSubjectOrGrade
  else
    Except.ok (processFiles subject grade "admin" "approved"
      Zone.approvedDir now files st 0 0)

/-- `SELECT * FROM uploads WHERE id = ?` (first row or none). -/
def findRecord (id : Nat) (st : AppState) : Option UploadRow :=
  st.uploads.find? (fun r => r.id == id)

/-- `UPDATE uploads SET status = ? WHERE id = ?`. -/
def setStatus (id : Nat) (status : String) (st : AppState) : AppState :=
  { st with uploads := st.uploads.map (fun r =>
      if r.id == id then { r with status := status } else r) }

/-- The `admin_approve` route: NotFound without a row, InvalidState unless
the row is pending; then `if os.path.exists(src): os.replace(src, dst)` —
the move happens only when the pending blob exists — and the status is set
to `approved` unconditionally afterwards. -/
def admin_approve (id : Nat) (st : AppState) : Except ModError AppState :=
  match findRecord id st with
  | none => Except.error ModError.notFound
  | some row =>
    if row.status != "pending" then Except.error ModError.invalidState
    else
      Except.ok (setStatus id "approved"
        (if st.pendingZone.contains row.filename then
          { st with
            pendingZone := zoneRemove row.filename st.pendingZone,
            approvedZone := zoneInsert row.filename st.approvedZone }
        else st))

/-- The `admin_reject` route: NotFound without a row; otherwise — with no
status check in the source — `if os.path.exists(src): os.remove(src)` on the
pending blob, then the status is set to `rejected`. -/
def admin_reject (id : Nat) (st : AppState) : Except ModError AppState :=
  match findRecord id st with
  | none => Except.error ModError.notFound
  | some row =>
    Except.ok (setStatus id "rejected"
      { st with pendingZone := zoneRemove row.filename st.pendingZone })

/-- One optional query filter: `if subject:` is false both for a missing
parameter and for an empty string, so only a nonempty value constrains. -/
def filterMatches (filt : Option String) (field : String) : Bool :=
  match filt with
  | none => true
  | some s => s == "" || field == s

/-- The WHERE clause of the `browse` query. -/
def browseMatches (subject grade : Option String) (r : UploadRow) : Bool :=
  r.status == "approved" && filterMatches subject r.subject &&
    filterMatches grade r.grade

/-- `ORDER BY uploaded_at DESC`: row `a` may precede row `b` when its
`uploaded_at` is no smaller. -/
def newestFirst (a b : UploadRow) : Prop := b.uploaded_at ≤ a.uploaded_at

instance : DecidableRel newestFirst :=
  fun a b => inferInstanceAs (Decidable (b.uploaded_at ≤ a.uploaded_at))

instance : IsTotal UploadRow newestFirst :=
  ⟨fun a b => le_total b.uploaded_at a.uploaded_at⟩

instance : IsTrans UploadRow newestFirst :=
  ⟨fun _ _ _ hab hbc => le_trans hbc hab⟩

/-- The `browse` route: `SELECT * FROM uploads WHERE status = 'approved'`
plus the optional subject and grade equality filters, `ORDER BY uploaded_at
DESC`.  A pure query: it takes the state and returns rows. -/
def browse (subject grade : Option String) (st : AppState) : List UploadRow :=
  List.insertionSort newestFirst (st.uploads.filter (browseMatches subject grade))

/-- One externally triggerable state-changing request. -/
inductive Op
| userUpload (subject grade uploader : String) (files : List UploadFile) (now : String)
| adminUploadOp (subject grade : String) (files : List UploadFile) (now : String)
| approveOp (id : Nat)
| rejectOp (id : Nat)

/-- Run one request against the state; a request that fails leaves the state
unchanged (every error path of the source returns before mutating). -/
def applyOp (st : AppState) : Op → AppState
  | Op.userUpload s g u fs now =>
    match upload s g u fs now st with
    | Except.ok (st1, _, _) => st1
    | Except.error _ => st
  | Op.adminUploadOp s g fs now =>
    match admin_upload s g fs now st with
    | Except.ok (st1, _, _) => st1
    | Except.error _ => st
  | Op.approveOp id =>
    match admin_approve id st with
    | Except.ok st1 => st1
    | Except.error _ => st
  | Op.rejectOp id =>
    match admin_reject id st with
    | Except.ok st1 => st1
    | Except.error _ => st

/-- Run a request sequence from the fresh state: the reachable states of the
application are exactly the values of `execOps`. -/
def execOps (ops : List Op) : AppState := ops.foldl applyOp initState

/-- The rows the per-file loop INSERTs, in order, with their AUTOINCREMENT
ids: one row per accepted file, none for a rejected file. -/
def mkRecords (subject grade uploader status now : String) :
    List UploadFile → Nat → List UploadRow
  | [], _ => []
  | f :: rest, nid =>
    if fileAccepted f then
      mkRecord nid f subject grade uploader status now ::
        mkRecords subject grade uploader status now rest (nid + 1)
    else
      mkRecords subject grade uploader status now rest nid

/-- The blob writes the per-file loop performs on its target directory: one
write per accepted file, none for a rejected file. -/
def zoneAfterFiles (fs : List UploadFile) (zone : List String) : List String :=
  fs.foldl (fun z f =>
    if fileAccepted f then
      zoneInsert (save_upload_key f.saveTimestamp f.filename) z
    else z) zone

/-- A mixed batch: two PDFs (one with upper-case extension), one docx, one
file with an empty name. -/
def c7files : List UploadFile :=
  [⟨"a.pdf", "T1"⟩, ⟨"b.PDF", "T2"⟩, ⟨"c.docx", "T3"⟩, ⟨"", "T4"⟩]

/-- The state after ingesting `c7files` into a fresh application. -/
def c7state : AppState :=
  (processFiles "Mathematics" "10" "" "pending" Zone.pendingDir "N" c7files
    initState 0 0).1

/-- Upload one PDF, then approve it: record 1 is approved with its blob in
the approved directory. -/
def approvedOneOps : List Op :=
  [Op.userUpload "Mathematics" "10" "" [⟨"a.pdf", "TB"⟩] "NB", Op.approveOp 1]

/-- The state reached by `approvedOneOps`. -/
def approvedOneSt : AppState := execOps approvedOneOps

/-- The state reached by `approvedOneOps` followed by a reject of the same
(already approved) record. -/
def rejectedAfterApproveSt : AppState :=
  execOps (approvedOneOps ++ [Op.rejectOp 1])

/-- A batch of two files with the same name saved in the same microsecond:
both storage keys coincide. -/
def collisionFiles : List UploadFile := [⟨"a.pdf", "T"⟩, ⟨"a.pdf", "T"⟩]

/-- The state after ingesting `collisionFiles` into a fresh application. -/
def collisionUploadSt : AppState :=
  (processFiles "Mathematics" "10" "" "pending" Zone.pendingDir "N2"
    collisionFiles initState 0 0).1

/-- Ingest the colliding batch, then reject record 2: the shared pending
blob is deleted while record 1 is still pending. -/
def collisionOps : List Op :=
  [Op.userUpload "Mathematics" "10" "" collisionFiles "N2", Op.rejectOp 2]

/-- The state reached by `collisionOps`: record 1 pending, no blob in either
directory. -/
def collisionSt : AppState := execOps collisionOps

/-- What approving record 1 in `collisionSt` produces: the status flips to
approved although no blob was moved. -/
def collisionApprovedSt : AppState := setStatus 1 "approved" collisionSt

/-- One PDF for the operator upload with an out-of-catalog grade. -/
def c5files : List UploadFile := [⟨"a.pdf", "T"⟩]

/-- The state `admin_upload` produces for `c5files` with subject Mathematics
and grade 99. -/
def c5state : AppState :=
  (processFiles "Mathematics" "99" "admin" "approved" Zone.approvedDir "N"
    c5files initState 0 0).1

/-- One PDF for the operator upload with a grade outside the subject's set. -/
def c6files : List UploadFile := [⟨"notes.pdf", "T6"⟩]

/-- The state `admin_upload` produces for `c6files` with subject Physical
Sciences and grade 8 (that subject only has grades 10-12). -/
def c6state : AppState :=
  (processFiles "Physical Sciences" "8" "admin" "approved" Zone.approvedDir
    "N6" c6files initState 0 0).1

/-- A state holding one pending record whose blob sits in the pending
directory. -/
def wApproveSt : AppState :=
  ⟨[⟨1, "K__a.pdf", "a.pdf", "Mathematics", "10", "", "pending", "N"⟩], 2,
    ["K__a.pdf"], []⟩

/-- The single row of `wApproveSt`. -/
def wApproveRow : UploadRow :=
  ⟨1, "K__a.pdf", "a.pdf", "Mathematics", "10", "", "pending", "N"⟩

/-- `wApproveSt` after a successful approve of record 1. -/
def wApproveSt1 : AppState :=
  ⟨[⟨1, "K__a.pdf", "a.pdf", "Mathematics", "10", "", "approved", "N"⟩], 2,
    [], ["K__a.pdf"]⟩

/-- A one-PDF user batch used to exercise the user ingestion path. -/
def w6files : List UploadFile := [⟨"w.pdf", "TW"⟩]

/-- The state after the user path ingests `w6files`. -/
def w6state : AppState :=
  (processFiles "Mathematics" "10" "x" "pending" Zone.pendingDir "NW" w6files
    initState 0 0).1

/-- The row created for `w6files`. -/
def w6row : UploadRow :=
  ⟨1, "TW__w.pdf", "w.pdf", "Mathematics", "10", "x", "pending", "NW"⟩

/-- The single approved row of `approvedOneSt`. -/
def w8row : UploadRow :=
  ⟨1, "TB__a.pdf", "a.pdf", "Mathematics", "10", "", "approved", "NB"⟩

/-- A one-PDF operator batch used to exercise the operator upload path. -/
def w10files : List UploadFile := [⟨"adm.pdf", "TA"⟩]

/-- The state after the operator path ingests `w10files`. -/
def w10state : AppState :=
  (processFiles "EMS" "9" "admin" "approved" Zone.approvedDir "NA" w10files
    initState 0 0).1

/-- The row created for `w10files`. -/
def w10row : UploadRow :=
  ⟨1, "TA__adm.pdf", "adm.pdf", "EMS", "9", "admin", "approved", "NA"⟩

theorem data_append (a b : String) : (a ++ b).data = a.data ++ b.data := rfl

theorem putBlob_uploads (z : Zone) (key : String) (st : AppState) :
    (putBlob z key st).uploads = st.uploads := by
  cases z <;> rfl

theorem putBlob_nextId (z : Zone) (key : String) (st : AppState) :
    (putBlob z key st).nextId = st.nextId := by
  cases z <;> rfl

theorem processFiles_counts (subject grade uploader status : String)
    (zone : Zone) (now : String) (fs : List UploadFile) :
    ∀ (st : AppState) (a r : Nat),
      (processFiles subject grade uploader status zone now fs st a r).2.1 =
          a + fs.countP fileAccepted
      ∧ (processFiles subject grade uploader status zone now fs st a r).2.2 =
          r + fs.countP (fun f => !fileAccepted f) := by
  induction fs with
  | nil => intro st a r; simp [processFiles]
  | cons f rest ih =>
    intro st a r
    cases hf : fileAccepted f with
    | false =>
      have ihx := ih st a (r + 1)
      simp [processFiles, hf, List.countP_cons, ihx.1, ihx.2]; omega
    | true =>
      have ihx := ih (insertRow
        (mkRecord st.nextId f subject grade uploader status now)
        (putBlob zone (save_upload_key f.saveTimestamp f.filename) st))
        (a + 1) r
      simp [processFiles, hf, List.countP_cons, ihx.1, ihx.2]; omega

theorem processFiles_uploads (subject grade uploader status : String)
    (zone : Zone) (now : String) (fs : List UploadFile) :
    ∀ (st : AppState) (a r : Nat),
      (processFiles subject grade uploader status zone now fs st a r).1.uploads
        = st.uploads ++ mkRecords subject grade uploader status now fs st.nextId := by
  induction fs with
  | nil => intro st a r; simp [processFiles, mkRecords]
  | cons f rest ih =>
    intro st a r
    cases hf : fileAccepted f with
    | false => simp [processFiles, mkRecords, hf, ih]
    | true =>
      simp only [processFiles, mkRecords, hf, if_true]
      rw [ih]
      simp [insertRow, putBlob_uploads, putBlob_nextId]

theorem processFiles_zones (subject grade uploader status : String)
    (now : String) (fs : List UploadFile) :
    ∀ (st : AppState) (a r : Nat),
      (processFiles subject grade uploader status Zone.pendingDir now fs st a r).1.pendingZone
          = zoneAfterFiles fs st.pendingZone
      ∧ (processFiles subject grade uploader status Zone.pendingDir now fs st a r).1.approvedZone
          = st.approvedZone := by
  induction fs with
  | nil => intro st a r; simp [processFiles, zoneAfterFiles]
  | cons f rest ih =>
    intro st a r
    cases hf : fileAccepted f with
    | false => simp [processFiles, zoneAfterFiles, hf, ih]
    | true =>
      simp only [processFiles, hf, if_true]
      constructor
      · rw [(ih _ _ _).1]
        simp [zoneAfterFiles, insertRow, putBlob, hf]
      · rw [(ih _ _ _).2]
        simp [insertRow, putBlob]

theorem mem_mkRecords (subject grade uploader status now : String)
    (fs : List UploadFile) :
    ∀ (nid : Nat) (row : UploadRow),
      row ∈ mkRecords subject grade uploader status now fs nid →
      row.subject = subject ∧ row.grade = grade ∧ row.uploader = uploader
        ∧ row.status = status := by
  induction fs with
  | nil => intro nid row h; simp [mkRecords] at h
  | cons f rest ih =>
    intro nid row h
    cases hf : fileAccepted f with
    | false =>
      rw [mkRecords, hf] at h
      simp only [Bool.false_eq_true, if_false] at h
      exact ih _ _ h
    | true =>
      rw [mkRecords, hf] at h
      simp only [if_true, List.mem_cons] at h
      cases h with
      | inl h => subst h; simp [mkRecord]
      | inr h => exact ih _ _ h

theorem mkRecords_length (subject grade uploader status now : String)
    (fs : List UploadFile) :
    ∀ nid : Nat,
      (mkRecords subject grade uploader status now fs nid).length =
        fs.countP fileAccepted := by
  induction fs with
  | nil => intro nid; simp [mkRecords]
  | cons f rest ih =>
    intro nid
    cases hf : fileAccepted f with
    | false => simp [mkRecords, hf, ih, List.countP_cons]
    | true => simp [mkRecords, hf, ih, List.countP_cons]

theorem findRecord_setStatus (id : Nat) (s : String) (st : AppState) :
    findRecord id (setStatus id s st) =
      (findRecord id st).map (fun r => { r with status := s }) := by
  unfold findRecord setStatus
  rw [List.find?_map]
  have hcomp : ((fun r : UploadRow => r.id == id) ∘ fun r : UploadRow =>
      if r.id == id then { r with status := s } else r) =
      fun r : UploadRow => r.id == id := by
    funext r
    by_cases h : r.id = id
    · simp [h]
    · simp [h]
  rw [hcomp]
  cases hfind : st.uploads.find? (fun r : UploadRow => r.id == id) with
  | none => rfl
  | some r =>
    have hp : r.id = id := by
      have := List.find?_some hfind
      simpa using this
    simp [hp]

/-- C1: the zone-consistency invariant fails on a reachable state.  Upload
`a.pdf`, approve record 1 (blob moved to the approved directory), then hit
the reject route on the same, already approved, record: the source's
`admin_reject` has no status check, so the record ends with status
`rejected` while its blob is still present in the approved zone — the claim
says a rejected record's blob exists in neither zone. -/
theorem zone_consistency_violated :
    (findRecord 1 rejectedAfterApproveSt).map UploadRow.status = some "rejected"
    ∧ (findRecord 1 rejectedAfterApproveSt).map
        (fun r => rejectedAfterApproveSt.approvedZone.contains r.filename) =
        some true := by
  constructor <;> rfl

/-- C3: `admin_reject` performs no InvalidState check.  On a record with
status `approved` it succeeds, deletes nothing from the approved zone, and
sets status `rejected`; a second reject of the now-rejected record succeeds
as well — the claim (and spec) say both calls must fail with InvalidState. -/
theorem reject_missing_state_check :
    (findRecord 1 approvedOneSt).map UploadRow.status = some "approved"
    ∧ admin_reject 1 approvedOneSt = Except.ok rejectedAfterApproveSt
    ∧ (findRecord 1 rejectedAfterApproveSt).map UploadRow.status = some "rejected"
    ∧ exceptIsOk (admin_reject 1 rejectedAfterApproveSt) = true := by
  refine ⟨rfl, rfl, rfl, rfl⟩

/-- C4: status transitions are not monotone.  Via the uncheck-ed reject
route, record 1 moves approved → rejected, which the claim forbids. -/
theorem status_not_monotonic :
    (findRecord 1 approvedOneSt).map UploadRow.status = some "approved"
    ∧ (findRecord 1 rejectedAfterApproveSt).map UploadRow.status = some "rejected" := by
  constructor <;> rfl

/-- C2 counterexample: a reachable state (two same-instant uploads of
`a.pdf` share one storage key; rejecting record 2 deletes the shared pending
blob) has record 1 pending with its blob absent from both zones.  Approving
record 1 then succeeds and marks it approved even though no blob was moved —
the claim says the operation must fail and leave the record pending. -/
theorem approve_without_move_counterexample :
    (findRecord 1 collisionSt).map UploadRow.status = some "pending"
    ∧ collisionSt.pendingZone = []
    ∧ collisionSt.approvedZone = []
    ∧ admin_approve 1 collisionSt = Except.ok collisionApprovedSt
    ∧ (findRecord 1 collisionApprovedSt).map UploadRow.status = some "approved"
    ∧ collisionApprovedSt.pendingZone = []
    ∧ collisionApprovedSt.approvedZone = [] := by
  refine ⟨rfl, rfl, rfl, rfl, rfl, rfl, rfl⟩

/-- C9 counterexample: two distinct files of one batch, saved in the same
microsecond with the same name, receive the same storage key.  The batch is
accepted with two records whose `filename` coincide, and the pending zone
holds a single blob — keys are not globally unique. -/
theorem storage_key_collision_counterexample :
    upload "Mathematics" "10" "" collisionFiles "N2" initState =
        Except.ok (collisionUploadSt, 2, 0)
    ∧ (findRecord 1 collisionUploadSt).map UploadRow.filename = some "T__a.pdf"
    ∧ (findRecord 2 collisionUploadSt).map UploadRow.filename = some "T__a.pdf"
    ∧ collisionUploadSt.pendingZone = ["T__a.pdf"] := by
  refine ⟨rfl, rfl, rfl, rfl⟩

/-- C5 counterexample: the operator upload path does not validate the grade
against the subject's grade set.  `admin_upload` with subject Mathematics
and grade 99 succeeds, creating an approved record with grade 99, although
99 is not a valid grade for Mathematics. -/
theorem admin_upload_invalid_grade_counterexample :
    (subjectGrades "Mathematics").contains "99" = false
    ∧ admin_upload "Mathematics" "99" c5files "N" initState =
        Except.ok (c5state, 1, 0)
    ∧ c5state.uploads.map UploadRow.grade = ["99"]
    ∧ c5state.uploads.map UploadRow.subject = ["Mathematics"]
    ∧ c5state.uploads.map UploadRow.status = ["approved"] := by
  refine ⟨rfl, rfl, rfl, rfl, rfl⟩

/-- C6 counterexample: a record can be inserted whose grade is outside the
grade set registered for its subject.  `admin_upload` with subject Physical
Sciences and grade 8 (the admin form even offers grades 8-12 for every
subject) creates such a record. -/
theorem grade_membership_counterexample :
    (subjectGrades "Physical Sciences").contains "8" = false
    ∧ admin_upload "Physical Sciences" "8" c6files "N6" initState =
        Except.ok (c6state, 1, 0)
    ∧ c6state.uploads.map UploadRow.grade = ["8"]
    ∧ c6state.uploads.map UploadRow.subject = ["Physical Sciences"] := by
  refine ⟨rfl, rfl, rfl, rfl⟩

theorem upload_ok_inv (subject grade uploader now : String)
    (fs : List UploadFile) (st st1 : AppState) (a r : Nat)
    (h : upload subject grade uploader fs now st = Except.ok (st1, a, r)) :
    processFiles subject grade (stripStr uploader) "pending" Zone.pendingDir
        now fs st 0 0 = (st1, a, r)
    ∧ (subject == "" || !subjectMember subject) = false
    ∧ (grade == "" || !(subjectGrades subject).contains grade) = false
    ∧ (fs.isEmpty || fs.all (fun f => f.filename == "")) = false := by
  unfold upload at h
  by_cases h1 : (fs.isEmpty || fs.all (fun f => f.filename == "")) = true
  · rw [if_pos h1] at h; simp at h
  · rw [if_neg h1] at h
    by_cases h2 : (subject == "" || !subjectMember subject) = true
    · rw [if_pos h2] at h; simp at h
    · rw [if_neg h2] at h
      by_cases h3 : (grade == "" || !(subjectGrades subject).contains grade) = true
      · rw [if_pos h3] at h; simp at h
      · rw [if_neg h3] at h
        refine ⟨?_, by simpa using h2, by simpa using h3, by simpa using h1⟩
        simpa using h

theorem admin_upload_ok_inv (subject grade now : String)
    (fs : List UploadFile) (st st1 : AppState) (a r : Nat)
    (h : admin_upload subject grade fs now st = Except.ok (st1, a, r)) :
    processFiles subject grade "admin" "approved" Zone.approvedDir now fs st 0 0
        = (st1, a, r)
    ∧ ((subject == "" || !subjectMember subject) || grade == "") = false
    ∧ (fs.isEmpty || fs.all (fun f => f.filename == "")) = false := by
  unfold admin_upload at h
  by_cases h1 : (fs.isEmpty || fs.all (fun f => f.filename == "")) = true
  · rw [if_pos h1] at h; simp at h
  · rw [if_neg h1] at h
    by_cases h2 : ((subject == "" || !subjectMember subject) || grade == "") = true
    · rw [if_pos h2] at h; simp at h
    · rw [if_neg h2] at h
      refine ⟨?_, by simpa using h2, by simpa using h1⟩
      simpa using h

/-- C7: per-file acceptance during user ingestion.  When `upload` succeeds,
the accepted count equals the number of files passing `fileAccepted`
(non-empty name and allowed extension, case-insensitively), the rejected
count equals the number of files failing it, the new rows are exactly
`mkRecords` (one per accepted file, none for a rejected file — the loop
never aborts the batch), and the pending-zone blob writes are exactly the
accepted files' keys (`zoneAfterFiles`), with the approved zone untouched. -/
theorem upload_per_file_acceptance (subject grade uploader now : String)
    (fs : List UploadFile) (st st1 : AppState) (a r : Nat)
    (h : upload subject grade uploader fs now st = Except.ok (st1, a, r)) :
    a = fs.countP fileAccepted
    ∧ r = fs.countP (fun f => !fileAccepted f)
    ∧ st1.uploads = st.uploads ++
        mkRecords subject grade (stripStr uploader) "pending" now fs st.nextId
    ∧ (mkRecords subject grade (stripStr uploader) "pending" now fs st.nextId).length
        = fs.countP fileAccepted
    ∧ st1.pendingZone = zoneAfterFiles fs st.pendingZone
    ∧ st1.approvedZone = st.approvedZone := by
  obtain ⟨hpf, -, -, -⟩ := upload_ok_inv subject grade uploader now fs st st1 a r h
  have hc := processFiles_counts subject grade (stripStr uploader) "pending"
    Zone.pendingDir now fs st 0 0
  have hu := processFiles_uploads subject grade (stripStr uploader) "pending"
    Zone.pendingDir now fs st 0 0
  have hz := processFiles_zones subject grade (stripStr uploader) "pending"
    now fs st 0 0
  rw [hpf] at hc hu hz
  have ha : a = 0 + fs.countP fileAccepted := hc.1
  have hr : r = 0 + fs.countP (fun f => !fileAccepted f) := hc.2
  refine ⟨by omega, by omega, hu, mkRecords_length subject grade
    (stripStr uploader) "pending" now fs st.nextId, hz.1, hz.2⟩

/-- C10: every row created by the operator direct-upload path has the fixed
submitter label `admin` and status `approved` at creation. -/
theorem admin_upload_submitter (subject grade now : String)
    (fs : List UploadFile) (st st1 : AppState) (a r : Nat)
    (h : admin_upload subject grade fs now st = Except.ok (st1, a, r)) :
    ∀ row, row ∈ st1.uploads → row ∈ st.uploads
      ∨ (row.uploader = "admin" ∧ row.status = "approved") := by
  obtain ⟨hpf, -, -⟩ := admin_upload_ok_inv subject grade now fs st st1 a r h
  have hu := processFiles_uploads subject grade "admin" "approved"
    Zone.approvedDir now fs st 0 0
  rw [hpf] at hu
  have hu2 : st1.uploads = st.uploads ++
      mkRecords subject grade "admin" "approved" now fs st.nextId := hu
  intro row hrow
  rw [hu2, List.mem_append] at hrow
  cases hrow with
  | inl h1 => exact Or.inl h1
  | inr h2 =>
    have hm := mem_mkRecords subject grade "admin" "approved" now fs
      st.nextId row h2
    exact Or.inr ⟨hm.2.2.1, hm.2.2.2⟩

/-- C10 witness: a concrete operator upload of one PDF yields a row with
uploader `admin` and status `approved`. -/
theorem admin_upload_submitter_witness :
    w10row ∈ initState.uploads
      ∨ (w10row.uploader = "admin" ∧ w10row.status = "approved") :=
  admin_upload_submitter "EMS" "9" "NA" w10files initState w10state 1 0 rfl
    w10row (by decide)

/-- C7 witness: the mixed batch `c7files` (two PDFs, one docx, one empty
name) is accepted as 2 and rejected as 2, with the rows and blob writes as
characterised. -/
theorem upload_per_file_acceptance_witness :
    (2 : Nat) = c7files.countP fileAccepted
    ∧ (2 : Nat) = c7files.countP (fun f => !fileAccepted f)
    ∧ c7state.uploads = initState.uploads ++
        mkRecords "Mathematics" "10" (stripStr "") "pending" "N" c7files
          initState.nextId
    ∧ (mkRecords "Mathematics" "10" (stripStr "") "pending" "N" c7files
        initState.nextId).length = c7files.countP fileAccepted
    ∧ c7state.pendingZone = zoneAfterFiles c7files initState.pendingZone
    ∧ c7state.approvedZone = initState.approvedZone :=
  upload_per_file_acceptance "Mathematics" "10" "" "N" c7files initState
    c7state 2 2 rfl

/-- C5 (amended): batch-level classification checks, as implemented.  With a
non-empty batch, both paths fail before any per-file work when the subject
is missing or outside the catalog; the user path additionally fails with the
invalid-grade error when the grade is empty or not valid for the subject;
but the operator path only requires a non-empty grade, so it proceeds (and
returns a success) even when the grade is not in the subject's grade set. -/
theorem classification_batch_amended (subject grade uploader now : String)
    (fs : List UploadFile) (st : AppState)
    (hfiles : (fs.isEmpty || fs.all (fun f => f.filename == "")) = false) :
    ((subject == "" || !subjectMember subject) = true →
        upload subject grade uploader fs now st =
            Except.error IngestError.invalidSubject
        ∧ admin_upload subject grade fs now st =
            Except.error IngestError.invalidSubjectOrGrade)
    ∧ ((subject == "" || !subjectMember subject) = false →
        ((grade == "" || !(subjectGrades subject).contains grade) = true →
            upload subject grade uploader fs now st =
              Except.error IngestError.invalidGrade)
        ∧ ((grade == "") = false →
            exceptIsOk (admin_upload subject grade fs now st) = true)) := by
  constructor
  · intro h
    constructor
    · unfold upload
      rw [if_neg (by simp [hfiles]), if_pos h]
    · unfold admin_upload
      rw [if_neg (by simp [hfiles]), if_pos (by simp [h])]
  · intro h
    constructor
    · intro h2
      unfold upload
      rw [if_neg (by simp [hfiles]), if_neg (by simp [h]), if_pos h2]
    · intro h3
      unfold admin_upload
      rw [if_neg (by simp [hfiles]), if_neg (by simp [h, h3])]
      rfl

/-- C5 witness: subject Mathematics with grade 99 — the user path fails
with the invalid-grade error, while the operator path succeeds. -/
theorem classification_batch_amended_witness :
    upload "Mathematics" "99" "" c5files "N" initState =
        Except.error IngestError.invalidGrade
    ∧ exceptIsOk (admin_upload "Mathematics" "99" c5files "N" initState) = true :=
  ⟨((classification_batch_amended "Mathematics" "99" "" "N" c5files initState
      rfl).2 rfl).1 rfl,
   ((classification_batch_amended "Mathematics" "99" "" "N" c5files initState
      rfl).2 rfl).2 rfl⟩

/-- C6 (amended): grade membership at record creation holds for the user
ingestion path — every row a successful `upload` adds has a grade in the
grade set of its subject — while the operator path only guarantees that the
subject is in the catalog and the grade is non-empty. -/
theorem grade_membership_amended :
    (∀ (subject grade uploader now : String) (fs : List UploadFile)
        (st st1 : AppState) (a r : Nat),
        upload subject grade uploader fs now st = Except.ok (st1, a, r) →
        ∀ row, row ∈ st1.uploads → row ∈ st.uploads
          ∨ (subjectGrades row.subject).contains row.grade = true)
    ∧ (∀ (subject grade now : String) (fs : List UploadFile)
        (st st1 : AppState) (a r : Nat),
        admin_upload subject grade fs now st = Except.ok (st1, a, r) →
        ∀ row, row ∈ st1.uploads → row ∈ st.uploads
          ∨ (subjectMember row.subject = true ∧ (row.grade == "") = false)) := by
  constructor
  · intro subject grade uploader now fs st st1 a r h row hrow
    obtain ⟨hpf, -, hgr, -⟩ :=
      upload_ok_inv subject grade uploader now fs st st1 a r h
    have hcontains : (subjectGrades subject).contains grade = true := by
      have := hgr
      simp only [Bool.or_eq_false_iff, Bool.not_eq_false'] at this
      exact this.2
    have hu := processFiles_uploads subject grade (stripStr uploader)
      "pending" Zone.pendingDir now fs st 0 0
    rw [hpf] at hu
    have hu2 : st1.uploads = st.uploads ++ mkRecords subject grade
        (stripStr uploader) "pending" now fs st.nextId := hu
    rw [hu2, List.mem_append] at hrow
    cases hrow with
    | inl h1 => exact Or.inl h1
    | inr h2 =>
      have hm := mem_mkRecords subject grade (stripStr uploader) "pending"
        now fs st.nextId row h2
      right
      rw [hm.1, hm.2.1]
      exact hcontains
  · intro subject grade now fs st st1 a r h row hrow
    obtain ⟨hpf, hcond, -⟩ := admin_upload_ok_inv subject grade now fs st st1 a r h
    have hsub : subjectMember subject = true ∧ (grade == "") = false := by
      have := hcond
      simp only [Bool.or_eq_false_iff, Bool.not_eq_false'] at this
      exact ⟨this.1.2, this.2⟩
    have hu := processFiles_uploads subject grade "admin" "approved"
      Zone.approvedDir now fs st 0 0
    rw [hpf] at hu
    have hu2 : st1.uploads = st.uploads ++ mkRecords subject grade "admin"
        "approved" now fs st.nextId := hu
    rw [hu2, List.mem_append] at hrow
    cases hrow with
    | inl h1 => exact Or.inl h1
    | inr h2 =>
      have hm := mem_mkRecords subject grade "admin" "approved" now fs
        st.nextId row h2
      right
      rw [hm.1, hm.2.1]
      exact hsub

/-- C6 witness: a row created by a concrete user upload has its grade in
the subject's grade set. -/
theorem grade_membership_amended_witness :
    w6row ∈ initState.uploads
      ∨ (subjectGrades w6row.subject).contains w6row.grade = true :=
  grade_membership_amended.1 "Mathematics" "10" "x" "NW" w6files initState
    w6state 1 0 rfl w6row (by decide)

/-- C2 (amended): `admin_approve` fails with NotFound when no record has the
id, with InvalidState when the record is not pending; on a pending record it
always succeeds: when the pending blob exists it is moved (removed from the
pending zone, inserted into the approved zone), when it is absent the zones
are untouched, and in both cases the status becomes `approved` — the record
can thus be marked approved without a successful move.  A second approve of
the same id then fails with InvalidState, and the moved blob is in the
approved zone exactly once (zone contents are name sets). -/
theorem admin_approve_amended :
    (∀ (id : Nat) (st : AppState), findRecord id st = none →
        admin_approve id st = Except.error ModError.notFound)
    ∧ (∀ (id : Nat) (st : AppState) (row : UploadRow),
        findRecord id st = some row → row.status ≠ "pending" →
        admin_approve id st = Except.error ModError.invalidState)
    ∧ (∀ (id : Nat) (st : AppState) (row : UploadRow),
        findRecord id st = some row → row.status = "pending" →
        exceptIsOk (admin_approve id st) = true)
    ∧ (∀ (id : Nat) (st : AppState) (row : UploadRow) (st1 : AppState),
        findRecord id st = some row → row.status = "pending" →
        admin_approve id st = Except.ok st1 →
        findRecord id st1 = some { row with status := "approved" }
        ∧ (st.pendingZone.contains row.filename = true →
            st1.pendingZone = zoneRemove row.filename st.pendingZone
            ∧ st1.approvedZone = zoneInsert row.filename st.approvedZone)
        ∧ (st.pendingZone.contains row.filename = false →
            st1.pendingZone = st.pendingZone
            ∧ st1.approvedZone = st.approvedZone)
        ∧ admin_approve id st1 = Except.error ModError.invalidState) := by
  have hbody : ∀ (id : Nat) (st : AppState) (row : UploadRow),
      findRecord id st = some row → row.status = "pending" →
      admin_approve id st = Except.ok (setStatus id "approved"
        (if st.pendingZone.contains row.filename then
          { st with
            pendingZone := zoneRemove row.filename st.pendingZone,
            approvedZone := zoneInsert row.filename st.approvedZone }
        else st)) := by
    intro id st row h hp
    unfold admin_approve
    rw [h]
    simp [hp]
  refine ⟨?_, ?_, ?_, ?_⟩
  · intro id st h
    unfold admin_approve
    rw [h]
  · intro id st row h hne
    unfold admin_approve
    rw [h]
    have hb : (row.status != "pending") = true := by simp [hne]
    simp [hb]
  · intro id st row h hp
    rw [hbody id st row h hp]
    rfl
  · intro id st row st1 h hp hok
    rw [hbody id st row h hp] at hok
    have hst1 : st1 = setStatus id "approved"
        (if st.pendingZone.contains row.filename then
          { st with
            pendingZone := zoneRemove row.filename st.pendingZone,
            approvedZone := zoneInsert row.filename st.approvedZone }
        else st) := by
      injection hok with h1
      exact h1.symm
    have hfr : findRecord id st1 = some { row with status := "approved" } := by
      rw [hst1, findRecord_setStatus]
      have hZ : findRecord id
          (if st.pendingZone.contains row.filename then
            { st with
              pendingZone := zoneRemove row.filename st.pendingZone,
              approvedZone := zoneInsert row.filename st.approvedZone }
          else st) = some row := by
        by_cases hc : st.pendingZone.contains row.filename = true
        · rw [if_pos hc]; exact h
        · rw [if_neg hc]; exact h
      rw [hZ]
      rfl
    refine ⟨hfr, ?_, ?_, ?_⟩
    · intro hc
      have hm : row.filename ∈ st.pendingZone := by simpa using hc
      rw [hst1]
      constructor <;> simp [setStatus, hm]
    · intro hc
      have hm : row.filename ∉ st.pendingZone := by simpa using hc
      rw [hst1]
      constructor <;> simp [setStatus, hm]
    · unfold admin_approve
      rw [hfr]
      rfl

/-- C2 witness: a concrete pending record with its blob in the pending zone
is approved (blob moved, row status updated) and a second approve of the
same id fails with InvalidState. -/
theorem admin_approve_amended_witness :
    findRecord 1 wApproveSt1 = some { wApproveRow with status := "approved" }
    ∧ wApproveSt1.pendingZone =
        zoneRemove wApproveRow.filename wApproveSt.pendingZone
    ∧ wApproveSt1.approvedZone =
        zoneInsert wApproveRow.filename wApproveSt.approvedZone
    ∧ admin_approve 1 wApproveSt1 = Except.error ModError.invalidState :=
  ⟨(admin_approve_amended.2.2.2 1 wApproveSt wApproveRow wApproveSt1 rfl rfl
      rfl).1,
   ((admin_approve_amended.2.2.2 1 wApproveSt wApproveRow wApproveSt1 rfl rfl
      rfl).2.1 rfl).1,
   ((admin_approve_amended.2.2.2 1 wApproveSt wApproveRow wApproveSt1 rfl rfl
      rfl).2.1 rfl).2,
   (admin_approve_amended.2.2.2 1 wApproveSt wApproveRow wApproveSt1 rfl rfl
      rfl).2.2.2⟩

/-- C8: `browse` returns exactly the rows of the record store whose status
is `approved` and which match the optional subject and grade filters; it
never returns a row with any other status, for any filters; and the result
is ordered newest first by `uploaded_at`.  It is a pure read: the function
only consumes the state. -/
theorem browse_approved_only (subject grade : Option String) (st : AppState) :
    (∀ row : UploadRow, row ∈ browse subject grade st ↔
        (row ∈ st.uploads ∧ browseMatches subject grade row = true))
    ∧ (∀ row : UploadRow, row ∈ browse subject grade st →
        row.status = "approved")
    ∧ List.Pairwise newestFirst (browse subject grade st) := by
  have hmem : ∀ row : UploadRow, row ∈ browse subject grade st ↔
      (row ∈ st.uploads ∧ browseMatches subject grade row = true) := by
    intro row
    unfold browse
    rw [(List.perm_insertionSort newestFirst _).mem_iff, List.mem_filter]
  refine ⟨hmem, ?_, ?_⟩
  · intro row hrow
    have h2 := ((hmem row).1 hrow).2
    unfold browseMatches at h2
    simp only [Bool.and_eq_true, beq_iff_eq] at h2
    exact h2.1.1
  · exact List.sorted_insertionSort newestFirst _

/-- C8 witness: the single approved row of a concrete state is returned by
`browse` and indeed has status approved. -/
theorem browse_approved_only_witness :
    w8row.status = "approved" :=
  (browse_approved_only (some "Mathematics") (some "10") approvedOneSt).2.1
    w8row (by decide)

/-- C9 (amended): storage keys are injective in the (timestamp, sanitized
filename) pair for the fixed-width microsecond timestamps the code uses:
with equal-length timestamps, two saved files receive the same key exactly
when both their timestamps and their sanitized names coincide — so two
files saved in the same microsecond whose names sanitize identically do
collide, and keys differ in every other case. -/
theorem save_upload_key_inj (t1 n1 t2 n2 : String)
    (hlen : t1.length = t2.length) :
    (save_upload_key t1 n1 = save_upload_key t2 n2) ↔
      (t1 = t2 ∧ secure_filename n1 = secure_filename n2) := by
  constructor
  · intro h
    have hdata : t1.data ++ ("__".data ++ (secure_filename n1).data) =
        t2.data ++ ("__".data ++ (secure_filename n2).data) := by
      have h2 := congrArg String.data h
      simpa [save_upload_key, data_append, List.append_assoc] using h2
    have hlen2 : t1.data.length = t2.data.length := hlen
    obtain ⟨ht, hrest⟩ := List.append_inj hdata hlen2
    obtain ⟨-, hs⟩ := List.append_inj hrest rfl
    exact ⟨String.ext ht, String.ext hs⟩
  · rintro ⟨rfl, hs⟩
    unfold save_upload_key
    rw [hs]

/-- C9 witness: two concrete same-length microsecond timestamps differing in
the last digit give different keys for equal names (the right side of the
equivalence is false, hence so is the left). -/
theorem save_upload_key_inj_witness :
    (save_upload_key "20250101120000000000" "a.pdf" =
        save_upload_key "20250101120000000001" "a.pdf") ↔
      (("20250101120000000000" : String) = "20250101120000000001"
        ∧ secure_filename "a.pdf" = secure_filename "a.pdf") :=
  save_upload_key_inj "20250101120000000000" "a.pdf" "20250101120000000001"
    "a.pdf" rfl

end PascalsNotes
